import Mathlib

/-!
Verification development for the hybrid-search-engine repository.

The definitions below are shallow embeddings of the Python source:
  * `src/msmarco_evaluation/models/bm25.py` (BM25.fit document-frequency table),
  * `src/msmarco_evaluation/evaluation/metrics.py` (compute_mrr / compute_recall),
  * `src/msmarco_evaluation/search/hybrid_search.py` (HybridSearcher.search),
  * `src/hybrid_search/nodes/retriever.py` (RetrieverNode._rerank_results),
  * `src/hybrid_search/nodes/quality_validator.py` (QualityValidatorNode),
  * `src/hybrid_search/nodes/context_processor.py` (ContextProcessor),
  * `src/hybrid_search/auth/service.py` (AuthService),
  * `src/hybrid_search/workflows/langgraph_workflow.py` (HybridSearchWorkflow).

Python floats are modelled as exact rationals, `np.log` as `Real.log`,
Python dicts as association lists (insertion order preserved), and Python
exceptions as `Except String`.  Wall-clock durations (`time.time()` deltas)
are not observable in a shallow embedding and are modelled as `0`; the keys
that the code stores into the various `step_times` tables are kept faithfully.
-/

namespace HybridSearchEngine

/-! ### Shared list utilities (Python `str.split`, `in`, stable descending sort, `dict.get`) -/

/-- Python whitespace characters recognised by `str.split()` with no argument. -/
def isPyWs (c : Char) : Bool :=
  c = ' ' || c = '\t' || c = '\n' || c = '\x0d' || c = '\x0b' || c = '\x0c'

/-- Split a character list on runs of whitespace, dropping empty pieces
(the behaviour of Python `str.split()`). `cur` is the word currently being read,
in reverse. -/
def splitWsAux : List Char → List Char → List (List Char)
  | [], [] => []
  | [], cur => [cur.reverse]
  | c :: rest, cur =>
    if isPyWs c then
      match cur with
      | [] => splitWsAux rest []
      | _ => cur.reverse :: splitWsAux rest []
    else
      splitWsAux rest (c :: cur)

/-- Python `s.split()`: the whitespace-separated words of a string. -/
def pySplit (s : String) : List String :=
  (splitWsAux s.data []).map List.asString

/-- Whether `pat` occurs as a contiguous sublist of `hay` (Python `pat in hay`
for strings, on the underlying character lists). -/
def listContains (hay pat : List Char) : Bool :=
  match hay with
  | [] => pat.isEmpty
  | _ :: t => pat.isPrefixOf hay || listContains t pat

/-- Python substring test `pat in hay`. -/
def strContains (hay pat : String) : Bool :=
  listContains hay.data pat.data

/-- Insert an element into a list sorted descending by `key`, after all
elements whose key is `≥` its own key is false... precisely: the element is
placed before the first element whose key is `≤` its own, which makes the
resulting `pySortDesc` a stable descending sort, as Python's
`list.sort(key=..., reverse=True)` is. -/
def insertDesc (key : α → ℚ) (x : α) : List α → List α
  | [] => [x]
  | y :: ys => if key y ≤ key x then x :: y :: ys else y :: insertDesc key x ys

/-- Stable descending sort by a rational key (Python `sort(key=..., reverse=True)`). -/
def pySortDesc (key : α → ℚ) : List α → List α
  | [] => []
  | x :: xs => insertDesc key x (pySortDesc key xs)

theorem insertDesc_perm (key : α → ℚ) (x : α) (l : List α) :
    List.Perm (insertDesc key x l) (x :: l) := by
  induction l with
  | nil => exact List.Perm.refl _
  | cons y ys ih =>
    by_cases h : key y ≤ key x
    · simp [insertDesc, h]
    · simp only [insertDesc, h, if_false]
      exact ((ih.cons y).trans (List.Perm.swap x y ys))

theorem pySortDesc_perm (key : α → ℚ) (l : List α) : List.Perm (pySortDesc key l) l := by
  induction l with
  | nil => exact List.Perm.refl _
  | cons x xs ih =>
    exact (insertDesc_perm key x (pySortDesc key xs)).trans (ih.cons x)

theorem insertDesc_pairwise (key : α → ℚ) (x : α) (l : List α)
    (h : l.Pairwise (fun a b => key b ≤ key a)) :
    (insertDesc key x l).Pairwise (fun a b => key b ≤ key a) := by
  induction l with
  | nil => simp [insertDesc]
  | cons y ys ih =>
    by_cases hxy : key y ≤ key x
    · simp only [insertDesc, hxy, if_true]
      refine List.Pairwise.cons ?_ h
      intro b hb
      rcases List.mem_cons.mp hb with hb2 | hb2
      · exact hb2 ▸ hxy
      · exact le_trans (List.rel_of_pairwise_cons h hb2) hxy
    · simp only [insertDesc, hxy, if_false]
      have hins := ih (List.Pairwise.sublist (List.sublist_cons_self y ys) h)
      refine List.Pairwise.cons ?_ hins
      intro b hb
      have hmem := (insertDesc_perm key x ys).mem_iff.mp hb
      rcases List.mem_cons.mp hmem with hb2 | hb2
      · exact hb2 ▸ (le_of_not_le hxy)
      · exact List.rel_of_pairwise_cons h hb2

theorem pySortDesc_pairwise (key : α → ℚ) (l : List α) :
    (pySortDesc key l).Pairwise (fun a b => key b ≤ key a) := by
  induction l with
  | nil => simp [pySortDesc]
  | cons x xs ih => exact insertDesc_pairwise key x _ ih

/-- Python `dict(assocs).get(k, 0)` for a dict built by inserting the pairs of
`l` in order (a later binding for the same key overwrites an earlier one). -/
def dictGetQ (l : List (ℕ × ℚ)) (k : ℕ) : ℚ :=
  match l.reverse.find? (fun p => p.1 = k) with
  | some p => p.2
  | none => 0

/-- Membership of a key in a Python dict built from `l`. -/
def dictHasKey (l : List (ℕ × ℚ)) (k : ℕ) : Bool :=
  l.any (fun p => p.1 = k)

/-! ### BM25.fit (src/msmarco_evaluation/models/bm25.py)

`fit` iterates each document and, for every token occurrence, increments both
the per-document term-frequency table and the global `df` table
(`df[term] += 1` sits inside the token loop).  The `df` table is then used to
compute `idf[term] = np.log((corpus_size - freq + 0.5) / (freq + 0.5) + 1.0)`.
Only the argument of the logarithm is computed here (as an exact rational);
`np.log` is applied as `Real.log` in the theorems. -/

/-- One `df[term] += 1` step on the association list modelling the Python
`defaultdict(int)` (a fresh key is appended with count 1). -/
def bumpDf : List (String × ℕ) → String → List (String × ℕ)
  | [], t => [(t, 1)]
  | (s, n) :: rest, t =>
    if s = t then (s, n + 1) :: rest else (s, n) :: bumpDf rest t

/-- The `df` table produced by `BM25.fit` on a tokenized corpus: every token
occurrence of every document bumps the counter of its term. -/
def fitDf (corpus : List (List String)) : List (String × ℕ) :=
  corpus.foldl (fun df doc => doc.foldl bumpDf df) []

/-- The argument of `np.log` in `BM25.fit`:
`(corpus_size - freq + 0.5) / (freq + 0.5) + 1.0`, over exact rationals. -/
def idfArg (n freq : ℕ) : ℚ :=
  ((n : ℚ) - (freq : ℚ) + 1/2) / ((freq : ℚ) + 1/2) + 1

/-- The log-argument of the idf value `BM25.fit` stores for a term
(`none` when the term does not occur in the corpus). -/
def fitIdfArg (corpus : List (List String)) (t : String) : Option ℚ :=
  ((fitDf corpus).lookup t).map (fun freq => idfArg corpus.length freq)

/-- The true document frequency of a term: the number of documents of the
corpus in which the term occurs, independent of within-document repetitions. -/
def docFreq (corpus : List (List String)) (t : String) : ℕ :=
  (corpus.filter (fun d => d.contains t)).length

/-! ### compute_mrr / compute_recall (src/msmarco_evaluation/evaluation/metrics.py) -/

/-- `results[qid][:cutoff] if cutoff else results[qid]` — note that a cutoff
of `0` is falsy in Python and keeps the whole list. -/
def takeCutoff (cutoff : Option ℕ) (l : List String) : List String :=
  match cutoff with
  | none => l
  | some n => if n = 0 then l else l.take n

/-- The inner loop of `compute_mrr`: the reciprocal of the 1-based rank of the
first retrieved document that is among the relevant ones, `0` if none is. -/
def rrAux (relevant : List String) : List String → ℕ → ℚ
  | [], _ => 0
  | d :: rest, rank =>
    if relevant.contains d then 1 / (rank : ℚ) else rrAux relevant rest (rank + 1)

/-- The accumulating loop of `compute_mrr` over the qrels entries, returning
`(rr_sum, query_count)`.  Queries absent from `results` are skipped; present
ones count even when no relevant document is retrieved. -/
def mrrFold (results : List (String × List String)) (cutoff : Option ℕ) :
    List (String × List String) → ℚ × ℕ
  | [] => (0, 0)
  | (qid, relevant) :: rest =>
    match results.lookup qid with
    | none => mrrFold results cutoff rest
    | some docs =>
      let p := mrrFold results cutoff rest
      (p.1 + rrAux relevant (takeCutoff cutoff docs) 1, p.2 + 1)

/-- `compute_mrr(qrels, results, cutoff)`; qrels maps a query id to the list of
keys of its relevance-judgment dict. -/
def computeMrr (qrels results : List (String × List String)) (cutoff : Option ℕ) : ℚ :=
  let p := mrrFold results cutoff qrels
  if 0 < p.2 then p.1 / (p.2 : ℚ) else 0

/-- Per-query recall: `|set(relevant) ∩ set(retrieved)| / |set(relevant)|`,
`0` contribution when the relevant set is empty. -/
def recallOf (relevant retrieved : List String) : ℚ :=
  let relSet := relevant.dedup
  if 0 < relSet.length then
    ((relSet.filter (fun d => retrieved.contains d)).length : ℚ) / (relSet.length : ℚ)
  else 0

/-- The accumulating loop of `compute_recall`, returning `(recall_sum, query_count)`. -/
def recallFold (results : List (String × List String)) (cutoff : Option ℕ) :
    List (String × List String) → ℚ × ℕ
  | [] => (0, 0)
  | (qid, relevant) :: rest =>
    match results.lookup qid with
    | none => recallFold results cutoff rest
    | some docs =>
      let p := recallFold results cutoff rest
      (p.1 + recallOf relevant (takeCutoff cutoff docs), p.2 + 1)

/-- `compute_recall(qrels, results, cutoff)`. -/
def computeRecall (qrels results : List (String × List String)) (cutoff : Option ℕ) : ℚ :=
  let p := recallFold results cutoff qrels
  if 0 < p.2 then p.1 / (p.2 : ℚ) else 0

/-- The MRR value as the specification words it: the sum of reciprocal ranks
over the qrels queries that have results, divided by the number of such
queries, `0` if there are none. -/
def mrrSpecFormula (qrels results : List (String × List String)) (cutoff : Option ℕ) : ℚ :=
  let qs := qrels.filter (fun q => (results.lookup q.1).isSome)
  if qs.length = 0 then 0
  else (qs.map (fun q => rrAux q.2 (takeCutoff cutoff ((results.lookup q.1).getD [])) 1)).sum
        / (qs.length : ℚ)

/-! ### HybridSearcher.search (src/msmarco_evaluation/search/hybrid_search.py)

The searcher builds score dicts from the dense and sparse result lists, takes
the union of the document ids, scores each id as
`alpha*dense + (1-alpha)*sparse` with `dict.get(id, 0)` on the missing side,
sorts descending by score, and truncates to `k`.  Python iterates the id
union in unspecified `set` order; `unionIds` fixes one enumeration of that set
(dense ids first, then the sparse-only ids). -/

/-- One enumeration of `set(dense_scores) | set(sparse_scores)`. -/
def unionIds (dense sparse : List (ℕ × ℚ)) : List ℕ :=
  (dense.map Prod.fst).dedup ++
    ((sparse.map Prod.fst).dedup.filter (fun i => !(dense.map Prod.fst).contains i))

/-- `hybrid_score = (alpha * dense_score) + ((1 - alpha) * sparse_score)`. -/
def hybridScore (dense sparse : List (ℕ × ℚ)) (alpha : ℚ) (i : ℕ) : ℚ :=
  alpha * dictGetQ dense i + (1 - alpha) * dictGetQ sparse i

/-- The scored union, sorted descending by hybrid score (before truncation). -/
def hybridAll (dense sparse : List (ℕ × ℚ)) (alpha : ℚ) : List (ℕ × ℚ) :=
  pySortDesc Prod.snd
    ((unionIds dense sparse).map (fun i => (i, hybridScore dense sparse alpha i)))

/-- `HybridSearcher.search` restricted to its pure core: the fused ranking of
the two candidate lists, truncated to `k`. -/
def hybridSearch (dense sparse : List (ℕ × ℚ)) (k : ℕ) (alpha : ℚ) : List (ℕ × ℚ) :=
  (hybridAll dense sparse alpha).take k

/-! ### RetrieverNode._rerank_results (src/hybrid_search/nodes/retriever.py)

Hits carry an id and a relevance score; the rerank of the multi-stage path
enriches every surviving hit with its original per-method scores.  Python
dicts are modelled as association lists in insertion order with
overwrite-in-place semantics (`upsertEntry`). -/

structure RHit where
  id : ℕ
  score : ℚ
  vectorScore? : Option ℚ := none
  bm25Score? : Option ℚ := none
deriving DecidableEq

/-- The per-document record the rerank collects in `all_docs`. -/
structure DocEntry where
  hit : RHit
  vectorScore : ℚ
  vectorRank : ℕ
  bm25Score : ℚ
  bm25Rank : ℕ
deriving DecidableEq

/-- `max((hit._score for hit in l), default=1)`. -/
def maxScore : List RHit → ℚ
  | [] => 1
  | h :: t => t.foldl (fun m x => max m x.score) h.score

/-- Helper for `scoreRankOf`: scan with the current 1-based rank, a later
binding for the same id overwriting an earlier one (Python dict assignment). -/
def scoreRankAux (i : ℕ) : List RHit → ℕ → Option (ℚ × ℕ)
  | [], _ => none
  | h :: t, r =>
    match scoreRankAux i t (r + 1) with
    | some v => some v
    | none => if h.id = i then some (h.score, r) else none

/-- `bm25_scores.get(id, 0)` / `bm25_ranks.get(id, len+1)` for the dicts the
rerank builds over the BM25 list (a later duplicate id overwrites an earlier
one). -/
def scoreRankOf (l : List RHit) (i : ℕ) : Option (ℚ × ℕ) :=
  scoreRankAux i l 1

/-- Assign `k := v` in a Python dict: overwrite in place, else append. -/
def upsertEntry (k : ℕ) (v : DocEntry) : List (ℕ × DocEntry) → List (ℕ × DocEntry)
  | [] => [(k, v)]
  | (k0, v0) :: rest =>
    if k0 = k then (k0, v) :: rest else (k0, v0) :: upsertEntry k v rest

/-- `all_docs` after the first loop: every vector hit, carrying its vector
score/rank and the BM25-side lookups. -/
def allDocsVector (bm25 : List RHit) : List RHit → ℕ → List (ℕ × DocEntry) → List (ℕ × DocEntry)
  | [], _, acc => acc
  | h :: t, r, acc =>
    allDocsVector bm25 t (r + 1)
      (upsertEntry h.id
        { hit := h, vectorScore := h.score, vectorRank := r,
          bm25Score := ((scoreRankOf bm25 h.id).map Prod.fst).getD 0,
          bm25Rank := ((scoreRankOf bm25 h.id).map Prod.snd).getD (bm25.length + 1) }
        acc)

/-- The second loop of the rerank: the BM25-only hits are appended. -/
def allDocsBm25 (vectorLen : ℕ) : List RHit → ℕ → List (ℕ × DocEntry) → List (ℕ × DocEntry)
  | [], _, acc => acc
  | h :: t, r, acc =>
    allDocsBm25 vectorLen t (r + 1)
      (if acc.any (fun q => decide (q.1 = h.id)) then acc
       else acc ++ [(h.id,
         { hit := h, vectorScore := 0, vectorRank := vectorLen + 1,
           bm25Score := h.score, bm25Rank := r })])

/-- `all_docs` after both loops: every vector hit (vector order, carrying the
BM25-side lookups), then the BM25-only hits (BM25 order). -/
def allDocs (vector bm25 : List RHit) : List (ℕ × DocEntry) :=
  allDocsBm25 vector.length bm25 1 (allDocsVector bm25 vector 1 [])

/-- The combined score of one `all_docs` entry:
normalized-score fusion and reciprocal-rank fusion (`k = 60`), combined
`0.7 * score_fusion + 0.3 * rrf_fusion`. -/
def combinedScore (alpha maxVector maxBm25 : ℚ) (d : DocEntry) : ℚ :=
  let normVector := if 0 < maxVector then d.vectorScore / maxVector else 0
  let normBm25 := if 0 < maxBm25 then d.bm25Score / maxBm25 else 0
  let rrfVector := 1 / ((60 : ℚ) + (d.vectorRank : ℚ))
  let rrfBm25 := 1 / ((60 : ℚ) + (d.bm25Rank : ℚ))
  let scoreFusion := alpha * normVector + (1 - alpha) * normBm25
  let rrfFusion := alpha * rrfVector + (1 - alpha) * rrfBm25
  7/10 * scoreFusion + 3/10 * rrfFusion

/-- `RetrieverNode._rerank_results(vector_results, bm25_results, alpha)`. -/
def rerankResults (vector bm25 : List RHit) (alpha : ℚ) : List RHit :=
  if vector.isEmpty then bm25
  else if bm25.isEmpty then vector
  else
    let maxVector := maxScore vector
    let maxBm25 := maxScore bm25
    pySortDesc (fun h => h.score)
      ((allDocs vector bm25).map (fun p =>
        { p.2.hit with
            score := combinedScore alpha maxVector maxBm25 p.2,
            vectorScore? := some p.2.vectorScore,
            bm25Score? := some p.2.bm25Score }))

/-! ### QualityValidatorNode (src/hybrid_search/nodes/quality_validator.py)

The validation outcome depends only on the query, the answer text, the
configured thresholds, and the analyzer's `top_keywords`; `contentAnalysis =
none` models an empty/absent `content_analysis` dict (falsy in Python). -/

structure VOut where
  qualityScore : ℚ
  issues : List String
  validationPassed : Bool
  retryRecommended : Bool
deriving DecidableEq

/-- Python `str.lower()` on one character (ASCII range; the only case the
analysed strings exercise). -/
def pyLowerChar (c : Char) : Char :=
  if 65 ≤ c.toNat ∧ c.toNat ≤ 90 then Char.ofNat (c.toNat + 32) else c

/-- Python `str.lower()`. -/
def pyLower (s : String) : String := String.mk (s.data.map pyLowerChar)

/-- `len(query_words & answer_words) / len(query_words) if query_words else 0`. -/
def relevanceRatio (query answer : String) : ℚ :=
  let qw := (pySplit (pyLower query)).dedup
  let aw := pySplit (pyLower answer)
  if qw.length = 0 then 0
  else ((qw.filter (fun w => aw.contains w)).length : ℚ) / (qw.length : ℚ)

/-- `sum(1 for i in range(1, 6) if f"Source \x7bi\x7d" in answer or f"[\x7bi\x7d]" in answer)`. -/
def sourceRefCount (answer : String) : ℕ :=
  ((List.range 5).filter (fun i =>
    strContains answer ("Source " ++ toString (i + 1)) ||
    strContains answer ("[" ++ toString (i + 1) ++ "]"))).length

/-- The body of `QualityValidatorNode.__call__` on a non-degenerate state:
the stored `validation_results` as a function of query, answer, thresholds and
the analyzer keywords. -/
def validateAnswer (qualityThreshold retryThreshold : ℚ) (query answer : String)
    (contentAnalysis : Option (List (String × ℕ))) : VOut :=
  if answer.length < 10 then
    { qualityScore := 0, issues := ["Answer too short or empty"],
      validationPassed := false, retryRecommended := true }
  else
    let lenF : ℚ :=
      if answer.length < 100 then 2/5 else if 2000 < answer.length then 7/10 else 9/10
    let lenIss : List String :=
      if answer.length < 100 then ["Answer might be too brief"]
      else if 2000 < answer.length then ["Answer might be too verbose"] else []
    let srcCount := sourceRefCount answer
    let srcF : ℚ := if 0 < srcCount then 9/10 else 1/2
    let srcIss : List String :=
      if 0 < srcCount then [] else ["Answer doesn't reference sources adequately"]
    let ratio := relevanceRatio query answer
    let relF : ℚ := if 1/2 < ratio then 9/10 else if 3/10 < ratio then 7/10 else 2/5
    let relIss : List String :=
      if 1/2 < ratio then [] else if 3/10 < ratio then []
      else ["Answer may not be fully relevant to query"]
    let anaF : ℚ :=
      match contentAnalysis with
      | some kws =>
        if (kws.take 3).any (fun kw => strContains (pyLower answer) kw.1) then 4/5 else 3/5
      | none => 3/5
    let factors : List ℚ := [lenF, srcF, relF, anaF]
    let issues := lenIss ++ srcIss ++ relIss
    let qs : ℚ := if factors.length = 0 then 0 else factors.sum / (factors.length : ℚ)
    { qualityScore := qs, issues := issues,
      validationPassed := decide (qualityThreshold < qs) && decide (issues.length ≤ 1),
      retryRecommended := decide (qs < retryThreshold) }

/-! ### AuthService (src/hybrid_search/auth/service.py)

The bcrypt hash is modelled as an ideal injective tagger, a JWT as an inert
record of its claims plus the secret it was signed with (`verifyToken` checks
the signature and the expiry), Redis as a keyed store whose entries carry the
TTL-expiry instant set by `setex`, and the relational store as in-memory
lists.  Time is a natural-number instant passed explicitly. -/

structure UserR where
  id : ℕ
  username : String
  email : String
  hashedPassword : String
  isActive : Bool
  isSuperuser : Bool
deriving DecidableEq

/-- Ideal model of `pwd_context.hash`. -/
def hashPassword (p : String) : String := "bcrypt$" ++ p

/-- Ideal model of `pwd_context.verify`. -/
def verifyPassword (plain hashed : String) : Bool := hashed == hashPassword plain

/-- A JWT: the claims `\x7bsub, user_id, exp\x7d` plus the signing secret. -/
structure Token where
  sub? : Option String
  userId : ℕ
  exp : ℕ
  sig : String
deriving DecidableEq

/-- `AuthService.create_access_token` with the default 30-minute lifetime
(`now` and `exp` in seconds). -/
def createAccessToken (secret username : String) (userId now : ℕ) : Token × ℕ :=
  ({ sub? := some username, userId := userId, exp := now + 30 * 60, sig := secret },
   now + 30 * 60)

/-- `AuthService.verify_token`: the claims when the signature matches and the
token is unexpired, else `None`. -/
def verifyToken (secret : String) (now : ℕ) (t : Token) : Option Token :=
  if t.sig == secret && decide (now < t.exp) then some t else none

structure SessionData where
  userId : ℕ
  username : String
  expiresAt : ℕ
  isActive : Bool
  isSuperuser : Bool
deriving DecidableEq

/-- The session cache: entries `(key, value, ttl-expiry)` keyed by token. -/
structure RedisState where
  entries : List (Token × SessionData × ℕ)
deriving DecidableEq

def redisGet (r : RedisState) (now : ℕ) (t : Token) : Option SessionData :=
  match r.entries.find? (fun e => e.1 == t) with
  | some e => if now < e.2.2 then some e.2.1 else none
  | none => none

def redisSetex (r : RedisState) (t : Token) (v : SessionData) (expiry : ℕ) : RedisState :=
  { entries := (t, v, expiry) :: r.entries.filter (fun e => !(e.1 == t)) }

def redisDelete (r : RedisState) (t : Token) : RedisState :=
  { entries := r.entries.filter (fun e => !(e.1 == t)) }

/-- The relational store: the `users` table and the `user_sessions` table
(`(user_id, session_token, expires_at)` rows). -/
structure DBState where
  users : List UserR
  sessions : List (ℕ × Token × ℕ)
deriving DecidableEq

def getUserByUsername (db : DBState) (username : String) : Option UserR :=
  db.users.find? (fun u => u.username == username)

def getUserById (db : DBState) (userId : ℕ) : Option UserR :=
  db.users.find? (fun u => u.id == userId)

def authenticateUser (db : DBState) (username password : String) : Option UserR :=
  match getUserByUsername db username with
  | none => none
  | some u => if verifyPassword password u.hashedPassword then some u else none

/-- `AuthService.login_user`: authenticate, mint a token, write the cache
entry (TTL = token lifetime) and the durable session row. -/
def loginUser (secret : String) (db : DBState) (r : RedisState) (now : ℕ)
    (username password : String) : Except String (Token × DBState × RedisState) :=
  match authenticateUser db username password with
  | none => .error "Incorrect username or password"
  | some u =>
    if !u.isActive then .error "Inactive user"
    else
      let te := createAccessToken secret u.username u.id now
      let sd : SessionData :=
        { userId := u.id, username := u.username, expiresAt := te.2,
          isActive := u.isActive, isSuperuser := u.isSuperuser }
      .ok (te.1,
           { db with sessions := db.sessions ++ [(u.id, te.1, te.2)] },
           redisSetex r te.1 sd (now + 30 * 60))

/-- `AuthService.get_current_user`: the session cache first; on a cache miss,
fall back to JWT verification plus username lookup. -/
def getCurrentUser (secret : String) (db : DBState) (r : RedisState) (now : ℕ)
    (t : Token) : Option UserR :=
  match redisGet r now t with
  | some sd => getUserById db sd.userId
  | none =>
    match verifyToken secret now t with
    | none => none
    | some payload =>
      match payload.sub? with
      | none => none
      | some username => getUserByUsername db username

/-- `AuthService.logout_user`: delete the cache entry and the session row. -/
def logoutUser (db : DBState) (r : RedisState) (t : Token) : DBState × RedisState :=
  ({ db with sessions := db.sessions.filter (fun s => !(s.2.1 == t)) },
   redisDelete r t)

/-! ### Workflow orchestration (src/hybrid_search/workflows/langgraph_workflow.py)

The pipeline state is the dict initialised by `_run_langgraph_workflow` /
`_run_fallback_workflow`.  `processed_context` can, after a context-processor
failure, hold a whole two-key dict instead of a string, so it is a sum type
with Python `len` semantics.  The `answer_data` / `validation_results` dicts
are records of optional fields with `dict.get` defaults.  The six nodes are
abstract state transformers (`Except` models a raising node); `MockNode` and
the real `ContextProcessor` below instantiate them. -/

structure CtxMetadata where
  totalTokens : ℕ
  numSources : ℕ
  optimizationScore : ℚ
deriving DecidableEq

/-- The two-key dict `\x7b"context": ..., "metadata": ...\x7d` returned by
`_fallback_context_processing`. -/
structure FallbackResult where
  context : String
  metadata : CtxMetadata
deriving DecidableEq

/-- The value of the `processed_context` state field: normally a string, but a
whole fallback dict after a context-processor failure. -/
inductive CtxVal where
  | str (s : String)
  | dict (d : FallbackResult)
deriving DecidableEq

/-- Python `len` of a `processed_context` value: character count of a string,
key count (2) of the fallback dict. -/
def CtxVal.pyLen : CtxVal → ℕ
  | .str s => s.length
  | .dict _ => 2

/-- A search hit / passage item as the context processor sees it.  A key that
may be missing is an `Option`: raw hits carry `_source.passage_text`
(`sourceText?`), selected passages carry `text` (`text?`); accessing a missing
key raises. -/
structure CtxDoc where
  sourceText? : Option String := none
  text? : Option String := none
  score : ℚ := 0
deriving DecidableEq

/-- The `answer_data` dict (all fields absent in the initial state). -/
structure ADict where
  answer? : Option String := none
  inputTokens? : Option ℕ := none
  outputTokens? : Option ℕ := none
  totalTokens? : Option ℕ := none
  costEstimate? : Option ℚ := none
deriving DecidableEq

/-- The `validation_results` dict (all fields absent in the initial state). -/
structure VDict where
  qualityScore? : Option ℚ := none
  issues? : Option (List String) := none
  validationPassed? : Option Bool := none
  retryRecommended? : Option Bool := none
deriving DecidableEq

/-- The shared pipeline state dict. -/
structure WState where
  query : String
  indexName : String
  searchMethod : String
  numResults : ℕ
  messages : List String
  stepTimes : List (String × ℚ)
  retryCount : ℕ
  currentStep : String
  error? : Option String
  totalTokens : ℕ
  costEstimate : ℚ
  searchResults : List CtxDoc
  processedContext : CtxVal
  contextMetadata : Option CtxMetadata
  contentAnalysis : List (String × ℕ)
  similarityAnalysis : List (String × ℚ)
  answerData : ADict
  validationResults : VDict
  qualityScore : ℚ
deriving DecidableEq

/-- The initial state built by both executors (identical field content). -/
def initState (query indexName searchMethod : String) (numResults : ℕ) : WState :=
  { query := query, indexName := indexName, searchMethod := searchMethod,
    numResults := numResults, messages := [], stepTimes := [], retryCount := 0,
    currentStep := "initialization", error? := none, totalTokens := 0,
    costEstimate := 0, searchResults := [], processedContext := .str "",
    contextMetadata := none, contentAnalysis := [], similarityAnalysis := [],
    answerData := {}, validationResults := {}, qualityScore := 0 }

/-! #### ContextProcessor (src/hybrid_search/nodes/context_processor.py),
in the environment without the optional DSPy / LlamaIndex libraries.
`cnt` abstracts `TokenCounter.count_tokens`. -/

/-- Python `sep.join(parts)`. -/
def pyJoin (sep : String) : List String → String
  | [] => ""
  | [x] => x
  | x :: rest => x ++ sep ++ pyJoin sep rest

/-- The source-block loop of `_fallback_context_processing` over (at most) the
first five items, returning the collected parts and the running token total.
`i` is the 0-based enumeration index. -/
def fallbackCtxAux (cnt : String → ℕ) (maxT : ℕ) :
    List CtxDoc → ℕ → ℕ → Except String (List String × ℕ)
  | [], _, total => .ok ([], total)
  | d :: rest, i, total =>
    match d.sourceText? with
    | none => .error "KeyError: passage_text"
    | some text =>
      let tokens := cnt text
      if total + tokens ≤ maxT then
        match fallbackCtxAux cnt maxT rest (i + 1) (total + tokens) with
        | .ok p => .ok (("[Source " ++ toString (i + 1) ++ "] " ++ text) :: p.1, p.2)
        | .error e => .error e
      else
        let remaining := maxT - total
        if 100 < remaining then
          .ok (["[Source " ++ toString (i + 1) ++ "] " ++ text.take (remaining * 4) ++ "..."],
               total)
        else .ok ([], total)

/-- `ContextProcessor._fallback_context_processing(search_results)`: the
two-key dict of joined context and metadata. -/
def fallbackContextProcessing (cnt : String → ℕ) (maxT : ℕ)
    (searchResults : List CtxDoc) : Except String FallbackResult :=
  match fallbackCtxAux cnt maxT (searchResults.take 5) 0 0 with
  | .error e => .error e
  | .ok p =>
    .ok { context := pyJoin "\n\n" p.1,
          metadata := { totalTokens := p.2, numSources := p.1.length,
                        optimizationScore := 0 } }

/-- The greedy accumulation loop of `_simple_context_selection` over the
score-sorted documents. -/
def simpleSelAux (cnt : String → ℕ) (maxT : ℕ) :
    List CtxDoc → ℕ → Except String (List CtxDoc)
  | [], _ => .ok []
  | d :: rest, total =>
    match d.text? with
    | none => .error "KeyError: text"
    | some text =>
      let tokens := cnt text
      if total + tokens ≤ maxT then
        match simpleSelAux cnt maxT rest (total + tokens) with
        | .ok sel => .ok ({ text? := some text, score := d.score } :: sel)
        | .error e => .error e
      else .ok []

/-- `ContextProcessor._simple_context_selection`: sort by score descending,
greedily select within the token budget, return the selection and the
`len(selected)/len(documents)` score. -/
def simpleContextSelection (cnt : String → ℕ) (maxT : ℕ)
    (documents : List CtxDoc) : Except String (List CtxDoc × ℚ) :=
  match simpleSelAux cnt maxT (pySortDesc (fun d => d.score) documents) 0 with
  | .error e => .error e
  | .ok selected =>
    .ok (selected,
         if documents.length = 0 then 0
         else (selected.length : ℚ) / (documents.length : ℚ))

/-- The document-extraction loop of `ContextProcessor.__call__` (LlamaIndex
absent): each raw hit becomes a `\x7btext, metadata\x7d` item; a hit without
`_source.passage_text` raises. -/
def extractDocuments : List CtxDoc → Except String (List CtxDoc)
  | [] => .ok []
  | r :: rest =>
    match r.sourceText? with
    | none => .error "KeyError: passage_text"
    | some t =>
      match extractDocuments rest with
      | .ok ds => .ok ({ text? := some t, score := r.score } :: ds)
      | .error e => .error e

/-- The `try` body of `ContextProcessor.__call__` in the plain environment:
extract documents, select, then hand the *selected passages* to
`_fallback_context_processing` (which expects raw-hit shape — the shape
mismatch is the code's own). -/
def ctxMainBody (cnt : String → ℕ) (maxT : ℕ)
    (searchResults : List CtxDoc) : Except String FallbackResult :=
  match extractDocuments searchResults with
  | .error e => .error e
  | .ok documents =>
    match simpleContextSelection cnt maxT documents with
    | .error e => .error e
    | .ok sel => fallbackContextProcessing cnt maxT sel.1

/-- `ContextProcessor.__call__` as a workflow node. -/
def contextProcess (cnt : String → ℕ) (maxT : ℕ) (s : WState) :
    Except String WState :=
  let s1 := { s with currentStep := "context_processing",
                     messages := s.messages ++
                       ["🔧 Context Processor: Optimizing context window..."] }
  if s1.searchResults.isEmpty then
    .ok { s1 with processedContext := .str "", contextMetadata := none,
                  stepTimes := s1.stepTimes ++ [("context_processing", 0)] }
  else
    match ctxMainBody cnt maxT s1.searchResults with
    | .ok pr =>
      .ok { s1 with
              processedContext := .str pr.context,
              contextMetadata := some pr.metadata,
              messages := s1.messages ++
                ["🔧 Context Processor: Optimized to " ++
                 toString pr.metadata.totalTokens ++ " tokens"],
              stepTimes := s1.stepTimes ++ [("context_processing", 0)] }
    | .error e =>
      match fallbackContextProcessing cnt maxT s1.searchResults with
      | .ok fb =>
        .ok { s1 with
                error? := some ("Context processing error: " ++ e),
                processedContext := .dict fb,
                messages := s1.messages ++ ["❌ Context Processor: Error - " ++ e],
                stepTimes := s1.stepTimes ++ [("context_processing", 0)] }
      | .error e2 => .error e2

/-! #### The retry edge and the two executors -/

/-- The conjunction `_should_retry_answer` tests: validator recommended a
retry, fewer than 1 retries so far, very low quality, and a non-trivial
processed context (`len(state.get("processed_context", "")) > 50`). -/
def shouldRetryCond (s : WState) : Bool :=
  s.validationResults.retryRecommended?.getD false &&
  decide (s.retryCount < 1) &&
  decide (s.validationResults.qualityScore?.getD 0 < 3/10) &&
  decide (50 < s.processedContext.pyLen)

/-- `_should_retry_answer`: the edge label (`true` = "retry") together with
the state it mutates (incrementing `retry_count` and tracing the attempt). -/
def decideRetry (s : WState) : Bool × WState :=
  if shouldRetryCond s then
    (true,
     { s with retryCount := s.retryCount + 1,
              messages := s.messages ++
                ["🔄 Retrying answer generation (attempt #" ++
                 toString (s.retryCount + 2) ++ ")"] })
  else (false, s)

/-- The six pipeline nodes, as abstract state transformers. -/
structure NodeSet where
  coordinator : WState → Except String WState
  retriever : WState → Except String WState
  contentAnalyzer : WState → Except String WState
  contextProcessor : WState → Except String WState
  answerSynthesizer : WState → Except String WState
  qualityValidator : WState → Except String WState

/-- `MockNode.process`: trace a message, pass the state through. -/
def mockNode (name : String) (s : WState) : Except String WState :=
  .ok { s with messages := s.messages ++ ["Processed " ++ name ++ " (fallback)"] }

/-- The all-mock node set the orchestrator falls back to when a node class
fails to load. -/
def mockNodeSet : NodeSet :=
  { coordinator := mockNode "coordinator",
    retriever := mockNode "retriever",
    contentAnalyzer := mockNode "content_analyzer",
    contextProcessor := mockNode "context_processor",
    answerSynthesizer := mockNode "answer_synthesizer",
    qualityValidator := mockNode "quality_validator" }

/-- The linear chain of the compiled graph:
coordinator → retriever → content_analyzer → context_processor →
answer_synthesizer → quality_validator (a raising node propagates). -/
def chainRun (nds : NodeSet) (s : WState) : Except String WState :=
  match nds.coordinator s with
  | .error e => .error e
  | .ok a =>
    match nds.retriever a with
    | .error e => .error e
    | .ok b =>
      match nds.contentAnalyzer b with
      | .error e => .error e
      | .ok c =>
        match nds.contextProcessor c with
        | .error e => .error e
        | .ok d =>
          match nds.answerSynthesizer d with
          | .error e => .error e
          | .ok f => nds.qualityValidator f

/-- The conditional-edge loop after `quality_validator`: on "retry" run
answer_synthesizer and quality_validator again; `fuel` is the graph
recursion limit (exhaustion raises, as LangGraph does). -/
def graphLoop (nds : NodeSet) : ℕ → WState → Except String WState
  | 0, _ => .error "GraphRecursionError"
  | fuel + 1, s =>
    match decideRetry s with
    | (false, s2) => .ok s2
    | (true, s2) =>
      match nds.answerSynthesizer s2 with
      | .error e => .error e
      | .ok t =>
        match nds.qualityValidator t with
        | .error e => .error e
        | .ok u => graphLoop nds fuel u

/-- `self.app.invoke(initial_state)` for the compiled graph. -/
def invokeGraph (nds : NodeSet) (s : WState) : Except String WState :=
  match chainRun nds s with
  | .error e => .error e
  | .ok w => graphLoop nds 25 w

/-- The safe default `answer_data` substituted when the answer synthesizer
fails in the sequential executor. -/
def fallbackAnswerData : ADict :=
  { answer? := some "Unable to generate answer due to processing error.",
    inputTokens? := some 0, outputTokens? := some 0, totalTokens? := some 0,
    costEstimate? := some 0 }

/-- `_run_node_safely`: set `current_step`, run the node, record the elapsed
time under the node name even on failure, trace a failure message, and
substitute safe defaults for the two critical nodes. -/
def runNodeSafely (name : String) (node : WState → Except String WState)
    (s : WState) : WState :=
  let s1 := { s with currentStep := name }
  match node s1 with
  | .ok t => { t with stepTimes := t.stepTimes ++ [(name, 0)] }
  | .error e =>
    let base :=
      { s1 with stepTimes := s1.stepTimes ++ [(name, 0)],
                messages := s1.messages ++ ["❌ " ++ name ++ " failed: " ++ e] }
    if name = "retriever" then
      { base with searchResults := [],
                  messages := base.messages ++ ["Using empty search results as fallback"] }
    else if name = "answer_synthesizer" then
      { base with answerData := fallbackAnswerData }
    else base

/-- The sequential executor's node sequence (each node once, no retry edge). -/
def fallbackChain (nds : NodeSet) (s : WState) : WState :=
  runNodeSafely "quality_validator" nds.qualityValidator
    (runNodeSafely "answer_synthesizer" nds.answerSynthesizer
      (runNodeSafely "context_processor" nds.contextProcessor
        (runNodeSafely "content_analyzer" nds.contentAnalyzer
          (runNodeSafely "retriever" nds.retriever
            (runNodeSafely "coordinator" nds.coordinator s)))))

/-- The final result record assembled by `_format_result` /
`_create_error_response`. -/
structure ResultRecord where
  query : String
  searchResults : List CtxDoc
  answer : String
  method : String
  numResults : ℕ
  contentAnalysis : List (String × ℕ)
  similarityAnalysis : List (String × ℚ)
  validationResults : VDict
  stepTimes : List (String × ℚ)
  totalProcessingTime : ℚ
  inputTokens : ℕ
  outputTokens : ℕ
  totalTokens : ℕ
  costEstimate : ℚ
  workflowMessages : List String
  qualityScore : ℚ
  error? : Option String
  workflowType : String
deriving DecidableEq

/-- `_format_result`: `workflow_type` is `'langgraph' if self.app else
'fallback'` — a function of the orchestrator's `app` attribute, not of which
executor ran. -/
def formatResult (appAvailable : Bool) (s : WState) : ResultRecord :=
  { query := s.query,
    searchResults := s.searchResults,
    answer := s.answerData.answer?.getD "No answer generated",
    method := "enhanced_hybrid_workflow",
    numResults := s.searchResults.length,
    contentAnalysis := s.contentAnalysis,
    similarityAnalysis := s.similarityAnalysis,
    validationResults := s.validationResults,
    stepTimes := s.stepTimes,
    totalProcessingTime := (s.stepTimes.map Prod.snd).sum,
    inputTokens := s.answerData.inputTokens?.getD 0,
    outputTokens := s.answerData.outputTokens?.getD 0,
    totalTokens := s.answerData.totalTokens?.getD 0,
    costEstimate := s.answerData.costEstimate?.getD 0,
    workflowMessages := s.messages,
    qualityScore := s.qualityScore,
    error? := s.error?,
    workflowType := if appAvailable then "langgraph" else "fallback" }

/-- `_run_fallback_workflow` (the manual sequential executor), formatting with
the caller's `app` availability. -/
def runFallbackWorkflowCore (appAvailable : Bool) (nds : NodeSet)
    (query indexName searchMethod : String) (numResults : ℕ) : ResultRecord :=
  formatResult appAvailable
    (fallbackChain nds (initState query indexName searchMethod numResults))

/-- `_run_langgraph_workflow`: invoke the compiled graph; if the invocation
raises, fall back to the sequential executor (with `self.app` still set). -/
def runLanggraphWorkflow (nds : NodeSet)
    (query indexName searchMethod : String) (numResults : ℕ) : ResultRecord :=
  match invokeGraph nds (initState query indexName searchMethod numResults) with
  | .ok r => formatResult true r
  | .error _ => runFallbackWorkflowCore true nds query indexName searchMethod numResults

/-- `HybridSearchWorkflow.run` (the non-raising paths): the graph executor when
the compiled app is available, else the sequential executor. -/
def runWorkflow (appAvailable : Bool) (nds : NodeSet)
    (query indexName searchMethod : String) (numResults : ℕ) : ResultRecord :=
  if appAvailable then runLanggraphWorkflow nds query indexName searchMethod numResults
  else runFallbackWorkflowCore false nds query indexName searchMethod numResults

/-- `_create_error_response` for a top-level executor exception. -/
def createErrorResponse (query errorMessage : String) (processingTime : ℚ) :
    ResultRecord :=
  { query := query, searchResults := [],
    answer := "Error processing query: " ++ errorMessage,
    method := "error_fallback", numResults := 0, contentAnalysis := [],
    similarityAnalysis := [], validationResults := {},
    stepTimes := [("error", processingTime)],
    totalProcessingTime := processingTime, inputTokens := 0, outputTokens := 0,
    totalTokens := 0, costEstimate := 0,
    workflowMessages := ["❌ Critical error: " ++ errorMessage],
    qualityScore := 0, error? := some errorMessage, workflowType := "error" }

/-! #### Reachability of pipeline states inside one graph invocation -/

/-- One execution step of the compiled graph: some node fires, or the
conditional edge is evaluated. -/
def gStep (nds : NodeSet) (s t : WState) : Prop :=
  nds.coordinator s = .ok t ∨ nds.retriever s = .ok t ∨
  nds.contentAnalyzer s = .ok t ∨ nds.contextProcessor s = .ok t ∨
  nds.answerSynthesizer s = .ok t ∨ nds.qualityValidator s = .ok t ∨
  decideRetry s = (true, t) ∨ decideRetry s = (false, t)

/-- States reachable from `s0` during one orchestrated request. -/
def gReach (nds : NodeSet) (s0 s : WState) : Prop :=
  Relation.ReflTransGen (gStep nds) s0 s

/-- A node that never writes `retry_count` (true of all six real node
classes; only `_should_retry_answer` touches it). -/
def preservesRetryCount (node : WState → Except String WState) : Prop :=
  ∀ s t, node s = .ok t → t.retryCount = s.retryCount

/-- The bookkeeping the sequential executor adds between nodes and the graph
executor does not: `current_step` and the orchestrator-level `step_times`
entries. -/
def eraseBk (s : WState) : WState := { s with currentStep := "", stepTimes := [] }

/-- A node whose non-bookkeeping effect is a function of the non-bookkeeping
part of the state (true of the real nodes: they read none of `current_step` /
`step_times` except to append their own timing key). -/
def bkInsensitive (node : WState → Except String WState) : Prop :=
  ∀ s t u v, eraseBk s = eraseBk t → node s = .ok u → node t = .ok v →
    eraseBk u = eraseBk v

/-- Every result-record field except `step_times`, `total_processing_time`
and `workflow_type`. -/
structure ResultCore where
  query : String
  searchResults : List CtxDoc
  answer : String
  method : String
  numResults : ℕ
  contentAnalysis : List (String × ℕ)
  similarityAnalysis : List (String × ℚ)
  validationResults : VDict
  inputTokens : ℕ
  outputTokens : ℕ
  totalTokens : ℕ
  costEstimate : ℚ
  workflowMessages : List String
  qualityScore : ℚ
  error? : Option String
deriving DecidableEq

/-- Projection of a result record onto its non-bookkeeping fields. -/
def resultCore (r : ResultRecord) : ResultCore :=
  { query := r.query, searchResults := r.searchResults, answer := r.answer,
    method := r.method, numResults := r.numResults,
    contentAnalysis := r.contentAnalysis,
    similarityAnalysis := r.similarityAnalysis,
    validationResults := r.validationResults, inputTokens := r.inputTokens,
    outputTokens := r.outputTokens, totalTokens := r.totalTokens,
    costEstimate := r.costEstimate, workflowMessages := r.workflowMessages,
    qualityScore := r.qualityScore, error? := r.error? }

/-! ## Theorems -/

/-! ### C2 — BM25 idf / document frequency -/

/-- The loop of `compute_mrr` agrees with the declarative formula of the
specification (filter the qrels queries that have results, sum their
reciprocal ranks, divide by their number). -/
theorem mrrFold_eq (results : List (String × List String)) (cutoff : Option ℕ)
    (l : List (String × List String)) :
    mrrFold results cutoff l =
      (((l.filter (fun q => (results.lookup q.1).isSome)).map
          (fun q => rrAux q.2 (takeCutoff cutoff ((results.lookup q.1).getD [])) 1)).sum,
       (l.filter (fun q => (results.lookup q.1).isSome)).length) := by
  induction l with
  | nil => rfl
  | cons hd tl ih =>
    obtain ⟨qid, rel⟩ := hd
    cases h : results.lookup qid with
    | none => simp [mrrFold, h, ih]
    | some docs => simp [mrrFold, h, ih, add_comm]

/-- C2: the claim states `idf[term] = ln((N − df + 0.5)/(df + 0.5) + 1)` with
`df` the number of documents containing the term, independent of
within-document repetitions.  On the corpus `[["a", "a"]]` the code's `df`
counter (incremented once per token occurrence) reaches `2` although only one
document contains `"a"`, so the stored idf is `ln(4/5)` (negative) where the
claimed formula gives `ln(4/3)` (positive). -/
theorem bm25_idf_uses_occurrence_counts :
    (fitDf [["a", "a"]]).lookup "a" = some 2 ∧
    docFreq [["a", "a"]] "a" = 1 ∧
    fitIdfArg [["a", "a"]] "a" = some (4/5) ∧
    idfArg 1 (docFreq [["a", "a"]] "a") = 4/3 ∧
    Real.log (((4 : ℚ)/5 : ℚ) : ℝ) ≠ Real.log ((idfArg 1 (docFreq [["a", "a"]] "a") : ℚ) : ℝ) := by
  refine ⟨by decide, by decide, ?_, ?_, ?_⟩
  · norm_num +decide [fitIdfArg, fitDf, bumpDf, idfArg]
  · norm_num +decide [idfArg, docFreq]
  have h43 : idfArg 1 (docFreq [["a", "a"]] "a") = 4/3 := by
    norm_num +decide [idfArg, docFreq]
  rw [h43]
  have e1 : (((4 : ℚ)/5 : ℚ) : ℝ) = 4/5 := by norm_num
  have e2 : (((4 : ℚ)/3 : ℚ) : ℝ) = 4/3 := by norm_num
  rw [e1, e2]
  have h1 : Real.log ((4 : ℝ)/5) < 0 := Real.log_neg (by norm_num) (by norm_num)
  have h2 : (0 : ℝ) < Real.log ((4 : ℝ)/3) := Real.log_pos (by norm_num)
  exact ne_of_lt (h1.trans h2)

/-! ### C3 — compute_mrr / compute_recall -/

/-- C3: `compute_mrr` equals the claimed sum-over-queries-with-results divided
by the number of qrels queries that have results (queries with results but no
relevant hit contribute 0 to the sum yet count in the denominator, and the
value is 0 when no qrels query has results); and the four concrete values of
the claim: for `qrels = \x7bq1: \x7bd1\x7d\x7d`,
`results = \x7bq1: [d3, d1, d2]\x7d` gives `MRR@10 = 1/2`, `Recall@10 = 1`,
while `results = \x7bq1: [d2, d3]\x7d` gives `0` for both. -/
theorem compute_mrr_matches_spec_and_examples :
    (∀ qrels results cutoff,
        computeMrr qrels results cutoff = mrrSpecFormula qrels results cutoff) ∧
    computeMrr [("q1", ["d1"])] [("q1", ["d3", "d1", "d2"])] (some 10) = 1/2 ∧
    computeRecall [("q1", ["d1"])] [("q1", ["d3", "d1", "d2"])] (some 10) = 1 ∧
    computeMrr [("q1", ["d1"])] [("q1", ["d2", "d3"])] (some 10) = 0 ∧
    computeRecall [("q1", ["d1"])] [("q1", ["d2", "d3"])] (some 10) = 0 := by
  refine ⟨?_,
    by norm_num +decide [computeMrr, mrrFold, rrAux, takeCutoff],
    by norm_num +decide [computeRecall, recallFold, recallOf, takeCutoff],
    by norm_num +decide [computeMrr, mrrFold, rrAux, takeCutoff],
    by norm_num +decide [computeRecall, recallFold, recallOf, takeCutoff]⟩
  intro qrels results cutoff
  unfold computeMrr mrrSpecFormula
  rw [mrrFold_eq]
  rcases Nat.eq_zero_or_pos
      (qrels.filter (fun q => (results.lookup q.1).isSome)).length with h | h
  · simp [h]
  · simp [h, Nat.pos_iff_ne_zero.mp h]

/-! ### C9 — RetrieverNode rerank on the concrete two-document input -/

/-- C9: for vector results `[(A, 0.9), (B, 0.5)]` and BM25 results
`[(B, 10), (A, 2)]` (A = id 0, B = id 1), the rerank with `alpha = 0.7`
places A above B. -/
theorem rerank_places_A_above_B :
    (rerankResults [{ id := 0, score := 9/10 }, { id := 1, score := 1/2 }]
        [{ id := 1, score := 10 }, { id := 0, score := 2 }] (7/10)).map RHit.id
      = [0, 1] := by
  norm_num +decide [rerankResults, allDocs, allDocsVector, allDocsBm25, upsertEntry,
    scoreRankOf, scoreRankAux, maxScore, combinedScore, pySortDesc, insertDesc,
    Option.map, Option.getD]

/-! ### C7 — QualityValidatorNode boundary behaviour -/

/-- C7: under the default thresholds (0.7 / 0.5), an answer of exactly 9
characters yields `quality_score = 0.0`, `validation_passed = false`,
`retry_recommended = true`; and an answer of 150 characters containing the
literal `"[1]"` whose word set shares more than 50% of the query's words
always passes validation, whichever branch the analysis-integration factor
takes. -/
theorem quality_validator_boundary :
    (∀ (query answer : String) (ca : Option (List (String × ℕ))),
        answer.length = 9 →
        validateAnswer (7/10) (1/2) query answer ca =
          { qualityScore := 0, issues := ["Answer too short or empty"],
            validationPassed := false, retryRecommended := true }) ∧
    (∀ (query answer : String) (ca : Option (List (String × ℕ))),
        answer.length = 150 →
        strContains answer "[1]" = true →
        1/2 < relevanceRatio query answer →
        (validateAnswer (7/10) (1/2) query answer ca).validationPassed = true) := by
  constructor
  · intro query answer ca h
    have h10 : answer.length < 10 := by omega
    simp [validateAnswer, if_pos h10]
  · intro query answer ca h150 hsub hrel
    have h10 : ¬ answer.length < 10 := by omega
    have hA : ¬ answer.length < 100 := by omega
    have hB : ¬ 2000 < answer.length := by omega
    have hsrcpos : 0 < sourceRefCount answer := by
      have h0mem : (0 : ℕ) ∈ (List.range 5).filter (fun i =>
          strContains answer ("Source " ++ toString (i + 1)) ||
          strContains answer ("[" ++ toString (i + 1) ++ "]")) := by
        refine List.mem_filter.mpr ⟨by decide, ?_⟩
        have he : ("[" ++ toString (0 + 1) ++ "]") = "[1]" := by decide
        simp only [he, hsub, Bool.or_true]
      exact List.length_pos.mpr (List.ne_nil_of_mem h0mem)
    simp only [validateAnswer, if_neg h10, if_neg hA, if_neg hB, if_pos hsrcpos,
      if_pos hrel]
    cases ca with
    | none => norm_num
    | some kws =>
      by_cases hany :
          (kws.take 3).any (fun kw => strContains (pyLower answer) kw.1) = true
      · simp only [hany, if_true]
        norm_num
      · simp only [Bool.not_eq_true] at hany
        simp only [hany, Bool.false_eq_true, if_false]
        norm_num

/-- The witness query: two words, both of which occur in the witness answer. -/
def wQuery : String := "alpha beta"

/-- The witness answer: 150 characters, contains `"[1]"`, shares both query
words. -/
def wAnswer : String := "alpha beta [1] " ++ String.mk (List.replicate 135 'x')

set_option maxRecDepth 8000 in
theorem quality_validator_boundary_witness :
    (("123456789" : String).length = 9 ∧
      validateAnswer (7/10) (1/2) "any query" "123456789" none =
        { qualityScore := 0, issues := ["Answer too short or empty"],
          validationPassed := false, retryRecommended := true }) ∧
    (wAnswer.length = 150 ∧
      strContains wAnswer "[1]" = true ∧
      1/2 < relevanceRatio wQuery wAnswer ∧
      (validateAnswer (7/10) (1/2) wQuery wAnswer none).validationPassed = true) := by
  have hflt : ((pySplit (pyLower wQuery)).dedup.filter
      (fun w => (pySplit (pyLower wAnswer)).contains w)).length = 2 := by decide
  have hql : (pySplit (pyLower wQuery)).dedup.length = 2 := by decide
  have hratio : relevanceRatio wQuery wAnswer = 1 := by
    simp only [relevanceRatio, hflt, hql]
    norm_num
  have hrel : 1/2 < relevanceRatio wQuery wAnswer := by
    rw [hratio]; norm_num
  refine ⟨⟨by decide, quality_validator_boundary.1 "any query" "123456789" none (by decide)⟩,
          ⟨by decide, by decide, hrel,
           quality_validator_boundary.2 wQuery wAnswer none (by decide) (by decide) hrel⟩⟩

/-! ### C1 — login / logout / token resolution -/

/-- A registered, active user. -/
def aliceUser : UserR :=
  { id := 1, username := "alice", email := "alice@example.com",
    hashedPassword := hashPassword "pw", isActive := true, isSuperuser := false }

def authDb0 : DBState := { users := [aliceUser], sessions := [] }

def authR0 : RedisState := { entries := [] }

/-- The token minted by logging alice in at time 0. -/
def c1Token : Token := { sub? := some "alice", userId := 1, exp := 1800, sig := "secret" }

def c1Session : SessionData :=
  { userId := 1, username := "alice", expiresAt := 1800, isActive := true,
    isSuperuser := false }

def authDb1 : DBState := { users := [aliceUser], sessions := [(1, c1Token, 1800)] }

def authR1 : RedisState := { entries := [(c1Token, c1Session, 1800)] }

/-- C1 counterexample: after registering alice, logging in at time 0, and
logging out, presenting the same not-yet-expired token (time 120 < exp 1800)
still resolves to alice — `get_current_user` falls back to JWT verification
plus username lookup, so the claim's "yields no user / rejected as
unauthorized" is false on this input. -/
theorem logout_keeps_token_resolving :
    loginUser "secret" authDb0 authR0 0 "alice" "pw" = .ok (c1Token, authDb1, authR1) ∧
    getCurrentUser "secret" authDb1 authR1 60 c1Token = some aliceUser ∧
    getCurrentUser "secret" (logoutUser authDb1 authR1 c1Token).1
        (logoutUser authDb1 authR1 c1Token).2 120 c1Token = some aliceUser ∧
    120 < c1Token.exp := by
  refine ⟨rfl, by decide, by decide, by decide⟩

/-- Searching a token-keyed store for a key that was just filtered out finds
nothing. -/
theorem find?_filter_neg (l : List (Token × SessionData × ℕ)) (t : Token) :
    (l.filter (fun e => !(e.1 == t))).find? (fun e => e.1 == t) = none := by
  apply List.find?_eq_none.mpr
  intro x hx
  have h2 := (List.mem_filter.mp hx).2
  simpa using h2

/-- C1 amended: after a successful login the bearer token resolves (via the
session cache) to the logged-in user; after logout — which does delete the
cache entry and the durable session row — a not-yet-expired token *still*
resolves to the same user through the JWT-verification fallback, and only an
expired token is rejected. -/
theorem auth_login_logout_token_resolution
    (secret : String) (db : DBState) (r : RedisState) (now : ℕ)
    (username password : String) (u : UserR)
    (hu : getUserByUsername db username = some u)
    (hpw : u.hashedPassword = hashPassword password)
    (hact : u.isActive = true)
    (hid : getUserById db u.id = some u)
    (tok : Token) (db1 : DBState) (r1 : RedisState)
    (hlogin : loginUser secret db r now username password = .ok (tok, db1, r1)) :
    (∀ now2, now2 < now + 30 * 60 → getCurrentUser secret db1 r1 now2 tok = some u) ∧
    (∀ now2, now2 < now + 30 * 60 →
        getCurrentUser secret (logoutUser db1 r1 tok).1 (logoutUser db1 r1 tok).2
          now2 tok = some u) ∧
    (∀ now2, now + 30 * 60 ≤ now2 →
        getCurrentUser secret (logoutUser db1 r1 tok).1 (logoutUser db1 r1 tok).2
          now2 tok = none) := by
  have hauth : authenticateUser db username password = some u := by
    unfold authenticateUser
    simp [hu, verifyPassword, hpw]
  have huname : u.username = username := by
    unfold getUserByUsername at hu
    have hp := List.find?_some hu
    exact eq_of_beq hp
  unfold loginUser at hlogin
  rw [hauth] at hlogin
  simp only [hact, Bool.not_true, Bool.false_eq_true, if_false, Except.ok.injEq,
    Prod.mk.injEq] at hlogin
  obtain ⟨htok, hdb1, hr1⟩ := hlogin
  subst htok hdb1 hr1
  refine ⟨?_, ?_, ?_⟩
  · intro now2 h2
    unfold getUserById at hid
    simp [getCurrentUser, redisGet, redisSetex, createAccessToken, getUserById, h2, hid]
  · intro now2 h2
    unfold logoutUser redisDelete getCurrentUser redisGet
    rw [find?_filter_neg]
    unfold verifyToken createAccessToken
    simp only [beq_self_eq_true, Bool.true_and, decide_eq_true_eq, if_pos h2]
    unfold getUserByUsername at hu ⊢
    rw [huname]
    exact hu
  · intro now2 h2
    unfold logoutUser redisDelete getCurrentUser redisGet
    rw [find?_filter_neg]
    unfold verifyToken createAccessToken
    simp only [beq_self_eq_true, Bool.true_and, decide_eq_true_eq]
    rw [if_neg (by omega)]

theorem auth_login_logout_token_resolution_witness :
    getCurrentUser "secret" authDb1 authR1 60 c1Token = some aliceUser ∧
    getCurrentUser "secret" (logoutUser authDb1 authR1 c1Token).1
        (logoutUser authDb1 authR1 c1Token).2 120 c1Token = some aliceUser ∧
    getCurrentUser "secret" (logoutUser authDb1 authR1 c1Token).1
        (logoutUser authDb1 authR1 c1Token).2 5000 c1Token = none := by
  obtain ⟨h1, h2, h3⟩ :=
    auth_login_logout_token_resolution "secret" authDb0 authR0 0 "alice" "pw"
      aliceUser (by decide) (by decide) (by decide) (by decide)
      c1Token authDb1 authR1 rfl
  exact ⟨h1 60 (by norm_num), h2 120 (by norm_num), h3 5000 (by norm_num)⟩

/-! ### C5 — workflow_type labelling -/

/-- A node set whose coordinator raises: the graph invocation fails and the
sequential executor produces the result. -/
def badNodeSet : NodeSet := { mockNodeSet with coordinator := fun _ => .error "boom" }

/-- C5 counterexample: with the graph executor available but its invocation
raising, the manual sequential executor produces the result, yet
`workflow_type` still reads `"langgraph"` (it is computed from `self.app`
alone), falsifying "« fallback » exactly when the sequential executor
produced it". -/
theorem workflow_type_mislabels_rescued_run :
    runWorkflow true badNodeSet "q" "idx" "hybrid" 5 =
      runFallbackWorkflowCore true badNodeSet "q" "idx" "hybrid" 5 ∧
    (runWorkflow true badNodeSet "q" "idx" "hybrid" 5).workflowType = "langgraph" ∧
    (runWorkflow true badNodeSet "q" "idx" "hybrid" 5).workflowType ≠ "fallback" := by
  refine ⟨rfl, rfl, by decide⟩

/-- C5 amended: `workflow_type` names the *availability* of the graph
executor, not the executor that actually produced the record: `"langgraph"`
whenever the compiled app exists (even when the sequential executor rescued a
raising invocation), `"fallback"` when it does not, and `"error"` on the
top-level error response. -/
theorem workflow_type_names_app_availability :
    (∀ (nds : NodeSet) (q i m : String) (n : ℕ),
        (runWorkflow true nds q i m n).workflowType = "langgraph") ∧
    (∀ (nds : NodeSet) (q i m : String) (n : ℕ),
        (runWorkflow false nds q i m n).workflowType = "fallback") ∧
    (∀ (q e : String) (t : ℚ), (createErrorResponse q e t).workflowType = "error") := by
  refine ⟨?_, ?_, ?_⟩
  · intro nds q i m n
    cases h : invokeGraph nds (initState q i m n) with
    | ok r => simp [runWorkflow, runLanggraphWorkflow, h, formatResult]
    | error e =>
      simp [runWorkflow, runLanggraphWorkflow, h, runFallbackWorkflowCore, formatResult]
  · intro nds q i m n
    simp [runWorkflow, runFallbackWorkflowCore, formatResult]
  · intro q e t
    rfl

/-! ### C4 — the retry edge and the retry_count invariant -/

/-- `MockNode` passes `retry_count` through unchanged. -/
theorem mockNode_preservesRetryCount (name : String) :
    preservesRetryCount (mockNode name) := by
  intro s t h
  simp only [mockNode, Except.ok.injEq] at h
  subst h
  rfl

/-- The four conditions of `_should_retry_answer`, unfolded. -/
theorem shouldRetryCond_iff (s : WState) :
    shouldRetryCond s = true ↔
      (s.validationResults.retryRecommended?.getD false = true ∧
       s.retryCount < 1 ∧
       s.validationResults.qualityScore?.getD 0 < 3/10 ∧
       50 < s.processedContext.pyLen) := by
  simp [shouldRetryCond, Bool.and_eq_true, decide_eq_true_eq, and_assoc]

/-- One graph step keeps `retry_count ≤ 1` (for nodes that preserve it). -/
theorem gStep_retry_le (nds : NodeSet)
    (hp1 : preservesRetryCount nds.coordinator)
    (hp2 : preservesRetryCount nds.retriever)
    (hp3 : preservesRetryCount nds.contentAnalyzer)
    (hp4 : preservesRetryCount nds.contextProcessor)
    (hp5 : preservesRetryCount nds.answerSynthesizer)
    (hp6 : preservesRetryCount nds.qualityValidator)
    (b c : WState) (hb : b.retryCount ≤ 1) (h : gStep nds b c) :
    c.retryCount ≤ 1 := by
  rcases h with h | h | h | h | h | h | h | h
  · rw [hp1 _ _ h]; exact hb
  · rw [hp2 _ _ h]; exact hb
  · rw [hp3 _ _ h]; exact hb
  · rw [hp4 _ _ h]; exact hb
  · rw [hp5 _ _ h]; exact hb
  · rw [hp6 _ _ h]; exact hb
  · unfold decideRetry at h
    by_cases hc : shouldRetryCond b = true
    · rw [if_pos hc] at h
      obtain ⟨-, hlt, -, -⟩ := (shouldRetryCond_iff b).mp hc
      have h2 := ((Prod.mk.injEq _ _ _ _).mp h).2
      rw [← h2]
      show b.retryCount + 1 ≤ 1
      omega
    · rw [if_neg hc] at h
      exact absurd (congrArg Prod.fst h) (by simp)
  · unfold decideRetry at h
    by_cases hc : shouldRetryCond b = true
    · rw [if_pos hc] at h
      exact absurd (congrArg Prod.fst h) (by simp)
    · rw [if_neg hc] at h
      have h2 := ((Prod.mk.injEq _ _ _ _).mp h).2
      rw [← h2]
      exact hb

/-- C4: in every state reachable during one orchestrated request (nodes that
do not write `retry_count`, starting from `retry_count = 0`), `retry_count`
never exceeds 1; the backward edge fires iff the validator recommended a
retry ∧ `retry_count < 1` ∧ `quality_score < 0.3` ∧ the processed context is
longer than 50; and firing increments `retry_count` by exactly 1. -/
theorem retry_count_never_exceeds_one (nds : NodeSet)
    (hp1 : preservesRetryCount nds.coordinator)
    (hp2 : preservesRetryCount nds.retriever)
    (hp3 : preservesRetryCount nds.contentAnalyzer)
    (hp4 : preservesRetryCount nds.contextProcessor)
    (hp5 : preservesRetryCount nds.answerSynthesizer)
    (hp6 : preservesRetryCount nds.qualityValidator)
    (s0 : WState) (h0 : s0.retryCount = 0) :
    (∀ s, gReach nds s0 s → s.retryCount ≤ 1) ∧
    (∀ s, (decideRetry s).1 = true ↔
        (s.validationResults.retryRecommended?.getD false = true ∧
         s.retryCount < 1 ∧
         s.validationResults.qualityScore?.getD 0 < 3/10 ∧
         50 < s.processedContext.pyLen)) ∧
    (∀ s, (decideRetry s).1 = true →
        (decideRetry s).2.retryCount = s.retryCount + 1) := by
  refine ⟨?_, ?_, ?_⟩
  · intro s hs
    induction hs with
    | refl => omega
    | tail hab hbc ih =>
      exact gStep_retry_le nds hp1 hp2 hp3 hp4 hp5 hp6 _ _ ih hbc
  · intro s
    rw [← shouldRetryCond_iff s]
    unfold decideRetry
    by_cases hc : shouldRetryCond s = true
    · rw [if_pos hc]
      simp [hc]
    · rw [if_neg hc]
      simp only [Bool.not_eq_true] at hc
      simp [hc]
  · intro s h
    unfold decideRetry at h ⊢
    by_cases hc : shouldRetryCond s = true
    · rw [if_pos hc]
    · rw [if_neg hc] at h
      exact absurd h (by simp)

theorem retry_count_never_exceeds_one_witness :
    (initState "q" "i" "m" 5).retryCount ≤ 1 :=
  (retry_count_never_exceeds_one mockNodeSet
    (mockNode_preservesRetryCount "coordinator")
    (mockNode_preservesRetryCount "retriever")
    (mockNode_preservesRetryCount "content_analyzer")
    (mockNode_preservesRetryCount "context_processor")
    (mockNode_preservesRetryCount "answer_synthesizer")
    (mockNode_preservesRetryCount "quality_validator")
    (initState "q" "i" "m" 5) rfl).1
    (initState "q" "i" "m" 5) Relation.ReflTransGen.refl

/-! ### C10 — context-processor failure stores the fallback dict -/

/-- C10: when the try-body of `ContextProcessor.__call__` raises on a
non-empty result list (and the except-branch fallback succeeds), the node
stores the *whole two-key fallback dict* into `processed_context`, leaves
`context_metadata` untouched, and — since the Python `len` of that dict is 2 —
the retry edge's non-trivial-context condition can never hold afterwards. -/
theorem context_processor_failure_stores_dict (cnt : String → ℕ) (maxT : ℕ)
    (s : WState) (e : String) (fb : FallbackResult)
    (hne : s.searchResults.isEmpty = false)
    (hbody : ctxMainBody cnt maxT s.searchResults = .error e)
    (hfb : fallbackContextProcessing cnt maxT s.searchResults = .ok fb) :
    contextProcess cnt maxT s = .ok
      { s with
          currentStep := "context_processing",
          messages := (s.messages ++ ["🔧 Context Processor: Optimizing context window..."])
            ++ ["❌ Context Processor: Error - " ++ e],
          error? := some ("Context processing error: " ++ e),
          processedContext := CtxVal.dict fb,
          stepTimes := s.stepTimes ++ [("context_processing", 0)] } ∧
    (CtxVal.dict fb).pyLen = 2 ∧
    (∀ s2 : WState, s2.processedContext = CtxVal.dict fb → shouldRetryCond s2 = false) := by
  refine ⟨?_, rfl, ?_⟩
  · unfold contextProcess
    simp only [hne, hbody, hfb, Bool.false_eq_true, if_false]
  · intro s2 h2
    simp [shouldRetryCond, h2, CtxVal.pyLen]

def c10Cnt : String → ℕ := fun t => t.length / 4

def c10State : WState :=
  { initState "q" "i" "m" 5 with
      searchResults := [{ sourceText? := some "hello world", score := 1 }] }

def c10Fb : FallbackResult :=
  { context := "[Source 1] hello world",
    metadata := { totalTokens := 2, numSources := 1, optimizationScore := 0 } }

theorem context_processor_failure_stores_dict_witness :
    contextProcess c10Cnt 8000 c10State = .ok
      { c10State with
          currentStep := "context_processing",
          messages := (c10State.messages ++
              ["🔧 Context Processor: Optimizing context window..."])
            ++ ["❌ Context Processor: Error - " ++ "KeyError: passage_text"],
          error? := some ("Context processing error: " ++ "KeyError: passage_text"),
          processedContext := CtxVal.dict c10Fb,
          stepTimes := c10State.stepTimes ++ [("context_processing", 0)] } ∧
    shouldRetryCond { initState "q" "i" "m" 5 with
        processedContext := CtxVal.dict c10Fb } = false := by
  have h := context_processor_failure_stores_dict c10Cnt 8000 c10State
    "KeyError: passage_text" c10Fb rfl rfl rfl
  exact ⟨h.1, h.2.2 _ rfl⟩

/-! ### C6 — the two executors are not equivalent; equivalence up to bookkeeping -/

/-- C6 counterexample: on the all-mock node set (every node traces one message
and passes the state through — no failure, no retry), the graph-based executor
and the manual sequential executor already produce different final result
records (`workflow_type` and the orchestrator-level `step_times` entries
differ). -/
theorem executors_produce_different_records :
    runWorkflow true mockNodeSet "q" "idx" "hybrid" 5 ≠
      runWorkflow false mockNodeSet "q" "idx" "hybrid" 5 := by
  intro h
  have h2 := congrArg ResultRecord.workflowType h
  have e1 : (runWorkflow true mockNodeSet "q" "idx" "hybrid" 5).workflowType
      = "langgraph" := rfl
  have e2 : (runWorkflow false mockNodeSet "q" "idx" "hybrid" 5).workflowType
      = "fallback" := rfl
  rw [e1, e2] at h2
  exact absurd h2 (by decide)

/-- The sequential executor's per-node wrapper only adds bookkeeping on top of
the node's own effect. -/
theorem runNodeSafely_erase (name : String) (node : WState → Except String WState)
    (hins : bkInsensitive node) (ht : ∀ x, ∃ y, node x = .ok y)
    (s u a : WState) (hse : eraseBk s = eraseBk u) (ha : node u = .ok a) :
    eraseBk (runNodeSafely name node s) = eraseBk a := by
  obtain ⟨t, hts⟩ := ht { s with currentStep := name }
  unfold runNodeSafely
  simp only [hts]
  exact hins { s with currentStep := name } u t a hse hts ha

/-- States equal after erasing bookkeeping format to the same non-bookkeeping
result fields, whatever `app` availability each format call sees. -/
theorem resultCore_formatResult (b1 b2 : Bool) (x y : WState)
    (h : eraseBk x = eraseBk y) :
    resultCore (formatResult b1 x) = resultCore (formatResult b2 y) := by
  cases x
  cases y
  simp_all [eraseBk, resultCore, formatResult]

/-- `MockNode` ignores and does not touch the bookkeeping fields. -/
theorem mockNode_bkInsensitive (name : String) : bkInsensitive (mockNode name) := by
  intro s t u v hse hu hv
  simp only [mockNode, Except.ok.injEq] at hu hv
  subst hu hv
  cases s
  cases t
  simp_all [eraseBk]

/-- C6 amended: when every node succeeds and ignores the bookkeeping fields,
and the retry edge would not fire after the validator, the graph executor and
the sequential executor agree on every field of the final result record
except `step_times`, `total_processing_time` and `workflow_type` (on which
they genuinely differ, as the counterexample shows). -/
theorem executors_agree_up_to_bookkeeping (nds : NodeSet)
    (ht1 : ∀ x, ∃ y, nds.coordinator x = .ok y) (hi1 : bkInsensitive nds.coordinator)
    (ht2 : ∀ x, ∃ y, nds.retriever x = .ok y) (hi2 : bkInsensitive nds.retriever)
    (ht3 : ∀ x, ∃ y, nds.contentAnalyzer x = .ok y)
    (hi3 : bkInsensitive nds.contentAnalyzer)
    (ht4 : ∀ x, ∃ y, nds.contextProcessor x = .ok y)
    (hi4 : bkInsensitive nds.contextProcessor)
    (ht5 : ∀ x, ∃ y, nds.answerSynthesizer x = .ok y)
    (hi5 : bkInsensitive nds.answerSynthesizer)
    (ht6 : ∀ x, ∃ y, nds.qualityValidator x = .ok y)
    (hi6 : bkInsensitive nds.qualityValidator)
    (q i m : String) (n : ℕ) (w : WState)
    (hw : chainRun nds (initState q i m n) = .ok w)
    (hnr : shouldRetryCond w = false) :
    resultCore (runWorkflow true nds q i m n) =
      resultCore (runWorkflow false nds q i m n) := by
  unfold chainRun at hw
  cases h1 : nds.coordinator (initState q i m n) with
  | error e => simp only [h1] at hw; exact absurd hw (by simp)
  | ok a =>
  simp only [h1] at hw
  cases h2 : nds.retriever a with
  | error e => simp only [h2] at hw; exact absurd hw (by simp)
  | ok b =>
  simp only [h2] at hw
  cases h3 : nds.contentAnalyzer b with
  | error e => simp only [h3] at hw; exact absurd hw (by simp)
  | ok c =>
  simp only [h3] at hw
  cases h4 : nds.contextProcessor c with
  | error e => simp only [h4] at hw; exact absurd hw (by simp)
  | ok d =>
  simp only [h4] at hw
  cases h5 : nds.answerSynthesizer d with
  | error e => simp only [h5] at hw; exact absurd hw (by simp)
  | ok f =>
  simp only [h5] at hw
  -- hw : nds.qualityValidator f = .ok w
  have k1 := runNodeSafely_erase "coordinator" nds.coordinator hi1 ht1
    (initState q i m n) (initState q i m n) a rfl h1
  have k2 := runNodeSafely_erase "retriever" nds.retriever hi2 ht2
    _ a b k1 h2
  have k3 := runNodeSafely_erase "content_analyzer" nds.contentAnalyzer hi3 ht3
    _ b c k2 h3
  have k4 := runNodeSafely_erase "context_processor" nds.contextProcessor hi4 ht4
    _ c d k3 h4
  have k5 := runNodeSafely_erase "answer_synthesizer" nds.answerSynthesizer hi5 ht5
    _ d f k4 h5
  have k6 := runNodeSafely_erase "quality_validator" nds.qualityValidator hi6 ht6
    _ f w k5 hw
  have hd : decideRetry w = (false, w) := by
    unfold decideRetry
    rw [hnr]
    simp
  have hloop : graphLoop nds 25 w = .ok w := by
    show graphLoop nds (24 + 1) w = .ok w
    rw [graphLoop, hd]
  have hchain : chainRun nds (initState q i m n) = .ok w := by
    simp only [chainRun, h1, h2, h3, h4, h5]
    exact hw
  have hg : runWorkflow true nds q i m n = formatResult true w := by
    unfold runWorkflow runLanggraphWorkflow invokeGraph
    simp only [hchain, hloop, if_true]
  have hf : runWorkflow false nds q i m n
      = formatResult false (fallbackChain nds (initState q i m n)) := rfl
  rw [hg, hf]
  exact resultCore_formatResult true false w (fallbackChain nds (initState q i m n)) k6.symm

theorem executors_agree_up_to_bookkeeping_witness :
    resultCore (runWorkflow true mockNodeSet "q" "idx" "hybrid" 5) =
      resultCore (runWorkflow false mockNodeSet "q" "idx" "hybrid" 5) :=
  executors_agree_up_to_bookkeeping mockNodeSet
    (fun _ => ⟨_, rfl⟩) (mockNode_bkInsensitive "coordinator")
    (fun _ => ⟨_, rfl⟩) (mockNode_bkInsensitive "retriever")
    (fun _ => ⟨_, rfl⟩) (mockNode_bkInsensitive "content_analyzer")
    (fun _ => ⟨_, rfl⟩) (mockNode_bkInsensitive "context_processor")
    (fun _ => ⟨_, rfl⟩) (mockNode_bkInsensitive "answer_synthesizer")
    (fun _ => ⟨_, rfl⟩) (mockNode_bkInsensitive "quality_validator")
    "q" "idx" "hybrid" 5 _ rfl rfl

/-! ### C8 — hybrid fusion at the alpha extremes -/

/-- In a dict with pairwise-distinct keys, `find?` by a member's key returns
that member. -/
theorem find?_eq_of_nodup_mem (l : List (ℕ × ℚ)) (p : ℕ × ℚ)
    (hn : (l.map Prod.fst).Nodup) (hp : p ∈ l) :
    l.find? (fun q => q.1 = p.1) = some p := by
  induction l with
  | nil => cases hp
  | cons x t ih =>
    rcases List.mem_cons.mp hp with h | h
    · subst h
      exact List.find?_cons_of_pos _ (by simp)
    · have hx : x.1 ≠ p.1 := by
        intro he
        have hmem : p.1 ∈ t.map Prod.fst := List.mem_map_of_mem Prod.fst h
        rw [← he] at hmem
        simp only [List.map_cons, List.nodup_cons] at hn
        exact hn.1 hmem
      rw [List.find?_cons_of_neg _ (by simp [hx])]
      simp only [List.map_cons, List.nodup_cons] at hn
      exact ih hn.2 h

/-- `dict.get(key, 0)` returns the stored score for a member of a
distinct-key association list. -/
theorem dictGetQ_eq (l : List (ℕ × ℚ)) (p : ℕ × ℚ)
    (hn : (l.map Prod.fst).Nodup) (hm : p ∈ l) : dictGetQ l p.1 = p.2 := by
  unfold dictGetQ
  have hrn : (l.reverse.map Prod.fst).Nodup := by
    rw [List.map_reverse, List.nodup_reverse]
    exact hn
  rw [find?_eq_of_nodup_mem l.reverse p hrn (List.mem_reverse.mpr hm)]

/-- Rebuilding an association list from its keys and a faithful score
function gives the list back. -/
theorem map_score_eq (tgt : List (ℕ × ℚ)) (g : ℕ → ℚ)
    (h : ∀ p ∈ tgt, g p.1 = p.2) :
    (tgt.map Prod.fst).map (fun i => (i, g i)) = tgt := by
  induction tgt with
  | nil => rfl
  | cons hd tl ih =>
    simp only [List.map_cons, List.cons.injEq]
    constructor
    · have := h hd (List.mem_cons_self hd tl)
      rw [this]
    · exact ih (fun p hp => h p (List.mem_cons_of_mem hd hp))

theorem unionIds_nodup (dense sparse : List (ℕ × ℚ)) :
    (unionIds dense sparse).Nodup := by
  unfold unionIds
  refine List.Nodup.append (List.nodup_dedup _) ((List.nodup_dedup _).filter _) ?_
  intro a ha hb
  have ha2 := List.mem_dedup.mp ha
  have hb2 := (List.mem_filter.mp hb).2
  rw [Bool.not_eq_true', List.contains, ← Bool.not_eq_true] at hb2
  rw [List.elem_iff] at hb2
  exact hb2 ha2

theorem mem_unionIds (dense sparse : List (ℕ × ℚ)) (i : ℕ) :
    i ∈ unionIds dense sparse ↔
      i ∈ dense.map Prod.fst ∨ i ∈ sparse.map Prod.fst := by
  simp only [unionIds, List.mem_append, List.mem_dedup, List.mem_filter,
    Bool.not_eq_true', List.contains, ← Bool.not_eq_true, List.elem_iff]
  constructor
  · rintro (h | ⟨h, -⟩)
    · exact Or.inl h
    · exact Or.inr h
  · rintro (h | h)
    · exact Or.inl h
    · by_cases hd : i ∈ dense.map Prod.fst
      · exact Or.inl hd
      · exact Or.inr ⟨h, hd⟩

/-- Filtering the id union down to a key set contained in it enumerates
exactly that key set (as a permutation). -/
theorem filter_union_perm (dense sparse : List (ℕ × ℚ)) (keys : List ℕ)
    (hn : keys.Nodup)
    (hsub : ∀ i ∈ keys, i ∈ dense.map Prod.fst ∨ i ∈ sparse.map Prod.fst) :
    List.Perm ((unionIds dense sparse).filter (fun i => keys.contains i)) keys := by
  apply (List.perm_ext_iff_of_nodup ((unionIds_nodup dense sparse).filter _) hn).mpr
  intro i
  simp only [List.mem_filter, mem_unionIds, List.contains, List.elem_iff]
  constructor
  · rintro ⟨-, h⟩
    exact h
  · intro h
    exact ⟨hsub i h, h⟩

/-- A weakly descending pair list whose scores are pairwise distinct is
strictly descending. -/
theorem pairwise_strict_of_ge_nodup (l : List (ℕ × ℚ))
    (h1 : l.Pairwise (fun a b => b.2 ≤ a.2))
    (h2 : (l.map Prod.snd).Nodup) :
    l.Pairwise (fun a b => b.2 < a.2) := by
  rw [List.Nodup, List.pairwise_map] at h2
  exact (h1.and h2).imp (fun hc => lt_of_le_of_ne hc.1 (Ne.symm hc.2))

theorem nodup_snd_of_strict (l : List (ℕ × ℚ))
    (h : l.Pairwise (fun a b => b.2 < a.2)) : (l.map Prod.snd).Nodup := by
  rw [List.Nodup, List.pairwise_map]
  exact h.imp (fun hlt => ne_of_gt hlt)

/-- The hybrid ranking, restricted to a candidate list whose scores the
hybrid score function reproduces, is exactly that candidate list (provided
the candidate list is strictly descending with distinct ids). -/
theorem hybrid_filter_eq (dense sparse tgt : List (ℕ × ℚ)) (alpha : ℚ)
    (htgt : tgt.Pairwise (fun a b => b.2 < a.2))
    (htn : (tgt.map Prod.fst).Nodup)
    (hscore : ∀ p ∈ tgt, hybridScore dense sparse alpha p.1 = p.2)
    (hsub : ∀ i ∈ tgt.map Prod.fst,
        i ∈ dense.map Prod.fst ∨ i ∈ sparse.map Prod.fst) :
    (hybridAll dense sparse alpha).filter
      (fun p => (tgt.map Prod.fst).contains p.1) = tgt := by
  have hperm1 :
      List.Perm ((hybridAll dense sparse alpha).filter
          (fun p => (tgt.map Prod.fst).contains p.1))
        (((unionIds dense sparse).map
            (fun i => (i, hybridScore dense sparse alpha i))).filter
          (fun p => (tgt.map Prod.fst).contains p.1)) :=
    (pySortDesc_perm _ _).filter _
  have hmapfilter :
      (((unionIds dense sparse).map
          (fun i => (i, hybridScore dense sparse alpha i))).filter
        (fun p => (tgt.map Prod.fst).contains p.1)) =
      (((unionIds dense sparse).filter
          (fun i => (tgt.map Prod.fst).contains i)).map
        (fun i => (i, hybridScore dense sparse alpha i))) :=
    List.filter_map _ _
  have hperm2 :
      List.Perm (((unionIds dense sparse).filter
          (fun i => (tgt.map Prod.fst).contains i)).map
        (fun i => (i, hybridScore dense sparse alpha i)))
        ((tgt.map Prod.fst).map
          (fun i => (i, hybridScore dense sparse alpha i))) :=
    (filter_union_perm dense sparse (tgt.map Prod.fst) htn hsub).map _
  have hmape :
      (tgt.map Prod.fst).map (fun i => (i, hybridScore dense sparse alpha i)) = tgt :=
    map_score_eq tgt _ hscore
  have hperm : List.Perm ((hybridAll dense sparse alpha).filter
      (fun p => (tgt.map Prod.fst).contains p.1)) tgt := by
    rw [hmapfilter] at hperm1
    rw [hmape] at hperm2
    exact hperm1.trans hperm2
  have hsortf : ((hybridAll dense sparse alpha).filter
      (fun p => (tgt.map Prod.fst).contains p.1)).Pairwise
        (fun a b => b.2 ≤ a.2) :=
    List.Pairwise.sublist (List.filter_sublist _) (pySortDesc_pairwise Prod.snd _)
  have hnodupsnd : (((hybridAll dense sparse alpha).filter
      (fun p => (tgt.map Prod.fst).contains p.1)).map Prod.snd).Nodup :=
    ((hperm.map Prod.snd).nodup_iff).mpr (nodup_snd_of_strict tgt htgt)
  have hstrict := pairwise_strict_of_ge_nodup _ hsortf hnodupsnd
  haveI : IsAntisymm (ℕ × ℚ) (fun a b => b.2 < a.2) :=
    ⟨fun a b ha hb => absurd hb (not_lt.mpr (le_of_lt ha))⟩
  exact List.eq_of_perm_of_sorted hperm hstrict htgt

/-- C8: with `alpha = 1.0` the hybrid ranking restricted to the dense
candidates is exactly the dense ranking, with `alpha = 0.0` restricted to the
sparse candidates it is exactly the sparse ranking (for strictly descending,
distinct-id candidate lists and an untruncating `k`); and every fused pair
carries `hybrid_score = alpha*dense + (1-alpha)*sparse` with the missing side
scored 0 (`dict.get(id, 0)`). -/
theorem hybrid_search_alpha_extremes (dense sparse : List (ℕ × ℚ)) (k : ℕ)
    (hd : dense.Pairwise (fun a b => b.2 < a.2))
    (hdn : (dense.map Prod.fst).Nodup)
    (hs : sparse.Pairwise (fun a b => b.2 < a.2))
    (hsn : (sparse.map Prod.fst).Nodup)
    (hk : (unionIds dense sparse).length ≤ k) :
    (hybridSearch dense sparse k 1).filter
        (fun p => (dense.map Prod.fst).contains p.1) = dense ∧
    (hybridSearch dense sparse k 0).filter
        (fun p => (sparse.map Prod.fst).contains p.1) = sparse ∧
    (∀ alpha : ℚ, ∀ p ∈ hybridAll dense sparse alpha,
        p.2 = alpha * dictGetQ dense p.1 + (1 - alpha) * dictGetQ sparse p.1) := by
  have hlen : ∀ alpha : ℚ, (hybridAll dense sparse alpha).length ≤ k := by
    intro alpha
    have := (pySortDesc_perm Prod.snd
      ((unionIds dense sparse).map
        (fun i => (i, hybridScore dense sparse alpha i)))).length_eq
    rw [hybridAll, this, List.length_map]
    exact hk
  have htake : ∀ alpha : ℚ,
      hybridSearch dense sparse k alpha = hybridAll dense sparse alpha := by
    intro alpha
    exact List.take_of_length_le (hlen alpha)
  refine ⟨?_, ?_, ?_⟩
  · rw [htake 1]
    apply hybrid_filter_eq dense sparse dense 1 hd hdn
    · intro p hp
      rw [hybridScore, dictGetQ_eq dense p hdn hp]
      ring
    · intro i hi
      exact Or.inl hi
  · rw [htake 0]
    apply hybrid_filter_eq dense sparse sparse 0 hs hsn
    · intro p hp
      rw [hybridScore, dictGetQ_eq sparse p hsn hp]
      ring
    · intro i hi
      exact Or.inr hi
  · intro alpha p hp
    have hp2 := (pySortDesc_perm Prod.snd _).mem_iff.mp hp
    obtain ⟨i, -, hie⟩ := List.mem_map.mp hp2
    rw [← hie]
    rfl

theorem hybrid_search_alpha_extremes_witness :
    (hybridSearch [(0, 3), (1, 2)] [(1, 5), (2, 1)] 10 1).filter
        (fun p => (([(0, 3), (1, 2)] : List (ℕ × ℚ)).map Prod.fst).contains p.1)
      = [(0, 3), (1, 2)] ∧
    (hybridSearch [(0, 3), (1, 2)] [(1, 5), (2, 1)] 10 0).filter
        (fun p => (([(1, 5), (2, 1)] : List (ℕ × ℚ)).map Prod.fst).contains p.1)
      = [(1, 5), (2, 1)] := by
  have h := hybrid_search_alpha_extremes [(0, 3), (1, 2)] [(1, 5), (2, 1)] 10
    (by norm_num) (by decide) (by norm_num) (by decide) (by decide)
  exact ⟨h.1, h.2.1⟩

end HybridSearchEngine
